import Mathlib

/-!
Verification development for a URL change-tracking bot.

The program watches web pages for content changes (SHA-256 digest of the
fetched bytes), schedules one periodic check job per (user, url) pair, and on
a detected change dispatches a summary text plus classified resources to the
user.  The definitions below are a shallow embedding of the program's core:
state maps are association lists mirroring Python dicts (in-place update,
insertion order preserved), external effect outcomes (network fetches, message
sends) are passed in explicitly, and exceptions are modelled by the explicit
control flow the surrounding try/except blocks give them.
-/

namespace UrlTracker

/-- Configuration constant: maximum message size in characters. -/
def MAX_MESSAGE_LENGTH : Nat := 4096

/-- Configuration constant: maximum resource payload size in bytes (50 MB). -/
def MAX_FILE_SIZE : Nat := 50 * 1024 * 1024

/-- Configuration constant: the fixed configured timezone name. -/
def TIMEZONE : String := "Asia/Kolkata"

/-- Fixed table mapping each resource kind to the list of suffix strings used
to classify a candidate URL, in the table's insertion order. -/
def SUPPORTED_TYPES : List (String × List String) :=
  [("document", ["application/pdf", "text/plain"]),
   ("image", ["image/jpeg", "image/png"]),
   ("audio", ["audio/mpeg", "audio/ogg"]),
   ("video", ["video/mp4", "video/quicktime"])]

/-! SHA-256 (FIPS 180-4), the digest algorithm the program invokes through
the standard hashlib capability on the raw fetched bytes; `sha256hex` is
hexdigest: the lowercase hexadecimal rendering of the 256-bit digest. -/

/-- Truncate to a 32-bit word. -/
def w32 (x : Nat) : Nat := x % 4294967296

/-- Rotate a 32-bit word right by n bits. -/
def rotr32 (n x : Nat) : Nat := w32 ((x >>> n) ||| (x <<< (32 - n)))

/-- Big sigma-0 compression function. -/
def bsig0 (x : Nat) : Nat := rotr32 2 x ^^^ rotr32 13 x ^^^ rotr32 22 x

/-- Big sigma-1 compression function. -/
def bsig1 (x : Nat) : Nat := rotr32 6 x ^^^ rotr32 11 x ^^^ rotr32 25 x

/-- Small sigma-0 message schedule function. -/
def ssig0 (x : Nat) : Nat := rotr32 7 x ^^^ rotr32 18 x ^^^ (x >>> 3)

/-- Small sigma-1 message schedule function. -/
def ssig1 (x : Nat) : Nat := rotr32 17 x ^^^ rotr32 19 x ^^^ (x >>> 10)

/-- Choice function. -/
def chF (x y z : Nat) : Nat := (x &&& y) ^^^ ((x ^^^ 4294967295) &&& z)

/-- Majority function. -/
def majF (x y z : Nat) : Nat := (x &&& y) ^^^ (x &&& z) ^^^ (y &&& z)

/-- The 64 SHA-256 round constants. -/
def Kconst : List Nat :=
  [1116352408, 1899447441, 3049323471, 3921009573, 961987163,
   1508970993, 2453635748, 2870763221, 3624381080, 310598401,
   607225278, 1426881987, 1925078388, 2162078206, 2614888103,
   3248222580, 3835390401, 4022224774, 264347078, 604807628,
   770255983, 1249150122, 1555081692, 1996064986, 2554220882,
   2821834349, 2952996808, 3210313671, 3336571891, 3584528711,
   113926993, 338241895, 666307205, 773529912, 1294757372,
   1396182291, 1695183700, 1986661051, 2177026350, 2456956037,
   2730485921, 2820302411, 3259730800, 3345764771, 3516065817,
   3600352804, 4094571909, 275423344, 430227734, 506948616,
   659060556, 883997877, 958139571, 1322822218, 1537002063,
   1747873779, 1955562222, 2024104815, 2227730452, 2361852424,
   2428436474, 2756734187, 3204031479, 3329325298]

/-- The eight SHA-256 working variables / hash words. -/
structure H8 where
  a : Nat
  b : Nat
  c : Nat
  d : Nat
  e : Nat
  f : Nat
  g : Nat
  h : Nat
deriving Repr, DecidableEq

/-- SHA-256 initial hash value. -/
def initH : H8 :=
  ⟨1779033703, 3144134277, 1013904242, 2773480762,
   1359893119, 2600822924, 528734635, 1541459225⟩

/-- Group a byte list into big-endian 32-bit words (four bytes per word). -/
def toWords : List Nat → List Nat
  | b0 :: b1 :: b2 :: b3 :: rest =>
      (b0 * 16777216 + b1 * 65536 + b2 * 256 + b3) :: toWords rest
  | _ => []

/-- SHA-256 padding: append the 0x80 byte, zero bytes up to 56 mod 64, then
the original bit length as eight big-endian bytes. -/
def pad (msg : List Nat) : List Nat :=
  msg ++ 0x80 :: List.replicate ((119 - msg.length % 64) % 64) 0
      ++ (List.range 8).map (fun i => ((8 * msg.length) >>> (8 * (7 - i))) % 256)

/-- Split the padded byte stream into 64-byte blocks. -/
def toBlocks (l : List Nat) : List (List Nat) :=
  (List.range ((l.length + 63) / 64)).map (fun i => (l.drop (64 * i)).take 64)

/-- One message-schedule extension step on the reversed schedule so far. -/
def schedStep (r : List Nat) : List Nat :=
  w32 (ssig1 (r.getD 1 0) + r.getD 6 0 + ssig0 (r.getD 14 0) + r.getD 15 0) :: r

/-- The 64-word message schedule of one block. -/
def msgSchedule (block : List Nat) : List Nat :=
  (schedStep^[48] (toWords block).reverse).reverse

/-- One SHA-256 compression round. -/
def roundStep (st : H8) (wk : Nat × Nat) : H8 :=
  let t1 := w32 (st.h + bsig1 st.e + chF st.e st.f st.g + wk.1 + wk.2)
  let t2 := w32 (bsig0 st.a + majF st.a st.b st.c)
  ⟨w32 (t1 + t2), st.a, st.b, st.c, w32 (st.d + t1), st.e, st.f, st.g⟩

/-- Process one 64-byte block into the running hash value. -/
def compress (hv : H8) (block : List Nat) : H8 :=
  let st := ((msgSchedule block).zip Kconst).foldl roundStep hv
  ⟨w32 (hv.a + st.a), w32 (hv.b + st.b), w32 (hv.c + st.c), w32 (hv.d + st.d),
   w32 (hv.e + st.e), w32 (hv.f + st.f), w32 (hv.g + st.g), w32 (hv.h + st.h)⟩

/-- SHA-256 digest of a byte list, as eight 32-bit hash words. -/
def sha256 (msg : List Nat) : H8 :=
  (toBlocks (pad msg)).foldl compress initH

/-- Lowercase hexadecimal digit character for a value below 16. -/
def hexDigit (n : Nat) : Char :=
  if n < 10 then Char.ofNat (48 + n) else Char.ofNat (87 + n)

/-- Eight lowercase hex characters of a 32-bit word, most significant first. -/
def hexWord (w : Nat) : List Char :=
  [hexDigit (w / 268435456 % 16), hexDigit (w / 16777216 % 16),
   hexDigit (w / 1048576 % 16), hexDigit (w / 65536 % 16),
   hexDigit (w / 4096 % 16), hexDigit (w / 256 % 16),
   hexDigit (w / 16 % 16), hexDigit (w % 16)]

/-- The hexdigest string of the SHA-256 digest of a byte list. -/
def sha256hex (msg : List Nat) : String :=
  let hv := sha256 msg
  String.mk (hexWord hv.a ++ hexWord hv.b ++ hexWord hv.c ++ hexWord hv.d ++
             hexWord hv.e ++ hexWord hv.f ++ hexWord hv.g ++ hexWord hv.h)

/-! Resource classification (extract_resources): the kind of a candidate URL
is the first table entry one of whose suffix strings the URL ends with,
defaulting to "document".  One variant compares the URL as is, the other
lowercases it first. -/

/-- Lowercase a string (ASCII case folding, as str.lower on these inputs). -/
def lowerStr (s : String) : String := String.mk (s.data.map Char.toLower)

/-- Suffix test on strings, the semantics of str.endswith: the second
string equals the tail of the first of the same length. -/
def pyEndsWith (s suf : String) : Bool :=
  decide (s.data.drop (s.data.length - suf.data.length) = suf.data)

/-- Classify a candidate resource URL by suffix match against the fixed
table, first matching entry wins, defaulting to "document". -/
def resource_type (url : String) : String :=
  match SUPPORTED_TYPES.find? (fun kv => kv.2.any (fun ext => pyEndsWith url ext)) with
  | some kv => kv.1
  | none => "document"

/-- Classification variant that lowercases the URL before the suffix match. -/
def resource_type_lc (url : String) : String := resource_type (lowerStr url)

/-! Summary chunking (split_send): a long text is sent in consecutive slices
text[i : i+MAX_MESSAGE_LENGTH] for i = 0, MAX, 2*MAX, ... -/

/-- The consecutive character slices of length at most MAX_MESSAGE_LENGTH
produced by the chunked send loop, in send order. -/
def split_msgs (s : List Char) : List (List Char) :=
  (List.range ((s.length + MAX_MESSAGE_LENGTH - 1) / MAX_MESSAGE_LENGTH)).map
    (fun i => (s.drop (i * MAX_MESSAGE_LENGTH)).take MAX_MESSAGE_LENGTH)

/-- ASCII approximation of str.title: uppercase each letter that follows a
non-letter, lowercase the rest.  The first argument says whether the
previous character was a letter. -/
def pyTitleAux : Bool → List Char → List Char
  | _, [] => []
  | prevAlpha, c :: cs =>
      (if c.isAlpha then (if prevAlpha then c.toLower else c.toUpper) else c)
        :: pyTitleAux c.isAlpha cs

/-- Title-case a string as str.title does on ASCII input. -/
def pyTitle (s : String) : String := String.mk (pyTitleAux false s.data)

/-- An extracted resource descriptor: absolute URL, display name, kind. -/
structure Resource where
  url : String
  name : String
  kind : String
deriving Repr, DecidableEq

/-- The summary text built for a detected update: a header line naming the
URL followed by one entry per resource. -/
def summaryText (url : String) (resources : List Resource) : String :=
  "🔔 Updates for " ++ url ++ ":\n\n" ++
    String.intercalate "\n"
      (resources.map (fun r => pyTitle r.kind ++ ": " ++ r.name ++ "\n" ++ r.url))

/-! Notification dispatch (send_updates): effect outcomes of the external
sends and fetches are supplied explicitly; every send call site is wrapped
by the function's own try/except blocks, so the function itself always
returns. -/

/-- The outbound delivery channels of the messaging endpoint. -/
inductive Channel
  | photo
  | video
  | audio
  | document
deriving Repr, DecidableEq

/-- Channel selection by resource kind: the literal mapping with generic
document delivery as the default. -/
def send_method (kind : String) : Channel :=
  if kind = "image" then .photo
  else if kind = "video" then .video
  else if kind = "audio" then .audio
  else .document

/-- One observable outbound send. -/
inductive Event
  | sentFile (user : Nat) (text : String)
  | sentChunk (user : Nat) (text : String)
  | sentMedia (user : Nat) (channel : Channel) (payload : List Nat) (caption : String)
deriving Repr, DecidableEq

/-- Externally determined outcome of handling one resource: whether its
fetch raises, the response status, the fetched bytes, and whether the send
call raises. -/
structure MediaOutcome where
  fetchRaises : Bool
  status : Nat
  body : List Nat
  sendRaises : Bool
deriving Repr, DecidableEq

/-- The per-resource delivery loop: each resource is fetched independently;
a non-200 status, an oversized payload, or a raised exception (caught by the
per-resource except block) skips that resource without aborting the rest. -/
def mediaPhase (user : Nat) : List Resource → List MediaOutcome → List Event
  | [], _ => []
  | _ :: _, [] => []
  | r :: rs, o :: os =>
      (if o.fetchRaises then []
       else if o.status = 200 then
         if o.body.length > MAX_FILE_SIZE then []
         else if o.sendRaises then []
         else [Event.sentMedia user (send_method r.kind) o.body r.name]
       else []) ++ mediaPhase user rs os

/-- Summary delivery: text longer than MAX_MESSAGE_LENGTH is written once as
a file attachment, otherwise it is sent as consecutive chunks.  The flag
models the external send call raising, which aborts the summary phase; the
Bool result records whether the phase completed without raising. -/
def summaryPhase (user : Nat) (text : String) (sendRaises : Bool) :
    List Event × Bool :=
  if text.length > MAX_MESSAGE_LENGTH then
    if sendRaises then ([], false) else ([Event.sentFile user text], true)
  else
    if sendRaises then ([], false)
    else ((split_msgs text.data).map (fun c => Event.sentChunk user (String.mk c)), true)

/-- Externally determined outcomes of every effect inside one dispatch:
the resource list the extractor returned (it catches its own failures and
yields an empty list then), whether the summary send raises, and the
per-resource outcomes. -/
structure DispatchEnv where
  resources : List Resource
  summarySendRaises : Bool
  outcomes : List MediaOutcome
deriving Repr, DecidableEq

/-- The whole dispatch: summary phase then media loop.  The function's outer
try/except swallows any exception, so it always returns; the Bool records
whether a raise was caught (only ever logged by the program). -/
def send_updates (user : Nat) (url : String) (env : DispatchEnv) :
    List Event × Bool :=
  let text := summaryText url env.resources
  let sp := summaryPhase user text env.summarySendRaises
  if sp.2 then (sp.1 ++ mediaPhase user env.resources env.outcomes, true)
  else (sp.1, false)

/-! Registry state: Python dicts modelled as association lists with
in-place update of an existing key and append of a new one. -/

/-- A tracked target's stored record. -/
structure Target where
  name : String
  interval : Nat
  hash : String
  nightMode : Bool
deriving Repr, DecidableEq

/-- Association-list lookup (first matching key). -/
def lookupA {α : Type} : List (String × α) → String → Option α
  | [], _ => none
  | (k, v) :: rest, key => if k = key then some v else lookupA rest key

/-- Association-list store: update the first matching key in place, append
the binding when the key is absent. -/
def setA {α : Type} : List (String × α) → String → α → List (String × α)
  | [], key, v => [(key, v)]
  | (k, w) :: rest, key, v =>
      if k = key then (key, v) :: rest else (k, w) :: setA rest key v

/-- The per-user map of tracked targets keyed by URL, itself keyed by the
user id rendered as a string. -/
abbrev UserMap : Type := List (String × List (String × Target))

/-- Nested lookup: the target stored for a user key and URL. -/
def lookup2 (m : UserMap) (key url : String) : Option Target :=
  (lookupA m key).bind (fun inner => lookupA inner url)

/-- Nested store: write the target under the user key and URL, creating the
inner map when the user key is absent. -/
def update2 (m : UserMap) (key url : String) (tgt : Target) : UserMap :=
  setA m key (setA ((lookupA m key).getD []) url tgt)

/-! Triggers: the abstract syntax the program builds, with firing semantics
modelled from the spec for the external scheduling library — an interval
trigger fires on the interval grid from its start, a cron hour trigger
fires when the hour of day lies in its range, and an AND combination fires
when all components fire. -/

/-- Trigger abstract syntax as constructed by the program; the AND
combination carries its two components, the only arity the program builds. -/
inductive Trigger
  | interval (minutes : Nat)
  | cron (hourLo hourHi : Nat)
  | comb (first second : Trigger)
deriving Repr, DecidableEq

/-- Hour of day of a time point counted in minutes. -/
def hourOf (t : Nat) : Nat := t / 60 % 24

/-- Modelled from the spec: whether a trigger fires at minute t for a job
whose interval grid starts at minute start — the logical AND reading of
combined triggers with an hour window for the cron component. -/
def Trigger.fires (start t : Nat) : Trigger → Bool
  | .interval m => decide (start ≤ t) && decide ((t - start) % m = 0)
  | .cron lo hi => decide (lo ≤ hourOf t) && decide (hourOf t ≤ hi)
  | .comb a b => a.fires start t && b.fires start t

/-- Trigger construction shared by tracking and night-mode toggling: an
interval trigger, AND-combined with the 6-22 hour cron window when night
mode is on. -/
def buildTrigger (interval : Nat) (night : Bool) : Trigger :=
  if night then .comb (.interval interval) (.cron 6 22) else .interval interval

/-- A scheduled job: the check arguments it closes over and its trigger. -/
structure Job where
  url : String
  user : Nat
  trigger : Trigger
deriving Repr, DecidableEq

/-- The scheduler's job registry keyed by job id. -/
abbrev JobMap : Type := List (String × Job)

/-- The job id for a user and URL. -/
def jobId (user : Nat) (url : String) : String := toString user ++ "_" ++ url

/-- Modelled from the spec: the external scheduling library's add_job with
an explicit id and replace_existing — after the call exactly the new job is
registered under that id, any previous job under the id being replaced. -/
def add_job (jobs : JobMap) (id : String) (j : Job) : JobMap :=
  jobs.filter (fun p => p.1 ≠ id) ++ [(id, j)]

/-- Modelled from the spec: the external scheduling library's
reschedule_job — the job under the id gets the new trigger in place. -/
def reschedule (jobs : JobMap) (id : String) (tr : Trigger) : JobMap :=
  jobs.map (fun p => if p.1 = id then (p.1, { p.2 with trigger := tr }) else p)

/-- The whole mutable state the embedded operations touch: the tracked
targets and the scheduler's job registry. -/
structure BotState where
  tracked : UserMap
  jobs : JobMap
deriving Repr, DecidableEq

/-! URL normalization in the track handler: prepend "http://" when the
parsed URL has no scheme. -/

/-- Valid characters of a URL scheme after the first. -/
def schemeChar (c : Char) : Bool := c.isAlpha || c.isDigit || c = '+' || c = '-' || c = '.'

/-- The characters before the first colon, when a colon occurs. -/
def beforeColon : List Char → Option (List Char)
  | [] => none
  | c :: cs => if c = ':' then some [] else (beforeColon cs).map (c :: ·)

/-- Whether URL parsing recognises a scheme: a non-empty section before the
first colon that starts with a letter and consists of scheme characters. -/
def hasScheme (url : String) : Bool :=
  match beforeColon url.data with
  | none => false
  | some [] => false
  | some (c :: rest) => c.isAlpha && (c :: rest).all schemeChar

/-- Prepend "http://" when the URL has no scheme, as the track handler does. -/
def normalize_url (url : String) : String :=
  if hasScheme url then url else "http://" ++ url

/-- The track operation: store the target record with an empty digest and
the given night flag, and register the check job under the pair's job id
with the freshly built trigger, replacing any existing job under that id. -/
def track_handler (st : BotState) (user : Nat) (name url0 : String)
    (interval : Nat) (night : Bool) : BotState :=
  let url := normalize_url url0
  let tracked := update2 st.tracked (toString user) url
    { name := name, interval := interval, hash := "", nightMode := night }
  let jobs := add_job st.jobs (jobId user url)
    { url := url, user := user, trigger := buildTrigger interval night }
  { tracked := tracked, jobs := jobs }

/-- The night-mode toggle: flip the stored flag; when a live job exists for
the pair, rebuild the trigger from the stored interval and the new flag and
reschedule the job in place.  An untracked URL leaves the state unchanged. -/
def nightmode_handler (st : BotState) (user : Nat) (url : String) : BotState :=
  match lookup2 st.tracked (toString user) url with
  | none => st
  | some tgt =>
    let tracked := update2 st.tracked (toString user) url
      { tgt with nightMode := !tgt.nightMode }
    match lookupA st.jobs (jobId user url) with
    | none => { st with tracked := tracked }
    | some _ =>
      let trigger := buildTrigger tgt.interval (!tgt.nightMode)
      { tracked := tracked, jobs := reschedule st.jobs (jobId user url) trigger }

/-! The firing body (check_updates): fetch, digest, compare, and on a
difference dispatch then commit.  The fetch outcome is passed in
explicitly; the whole body sits inside a try/except that swallows any
exception, which only the fetch can raise here since the dispatch swallows
its own. -/

/-- Outcome of the fetch at the start of a firing. -/
inductive FetchResult
  | ok (content : List Nat)
  | err
deriving Repr, DecidableEq

/-- Which control-flow branch a firing took: the caught fetch failure
(logged as a failed check), an untracked target, an unchanged digest, or a
detected change with dispatch. -/
inductive Outcome
  | fetchFailed
  | notTracked
  | unchanged
  | changed
deriving Repr, DecidableEq

/-- The observable result of one firing: the state after it, the outbound
sends it produced, and the branch it took. -/
structure CheckResult where
  state : BotState
  events : List Event
  outcome : Outcome
deriving Repr, DecidableEq

/-- One firing of the check job for (url, user): on a fetch failure the
exception is caught and nothing changes; on an untracked target nothing
changes; when the stored digest differs from the fresh one the dispatch is
invoked (its result is not consulted — it cannot raise) and then the fresh
digest is committed; otherwise nothing changes. -/
def check_updates (st : BotState) (url : String) (user : Nat)
    (fetch : FetchResult) (env : DispatchEnv) : CheckResult :=
  match fetch with
  | .err => ⟨st, [], .fetchFailed⟩
  | .ok content =>
    let currentHash := sha256hex content
    let key := toString user
    match lookup2 st.tracked key url with
    | none => ⟨st, [], .notTracked⟩
    | some tgt =>
      if tgt.hash ≠ currentHash then
        let sent := send_updates user url env
        ⟨{ st with tracked := update2 st.tracked key url { tgt with hash := currentHash } },
         sent.1, .changed⟩
      else ⟨st, [], .unchanged⟩

/-! Lemmas about the association-list maps. -/

lemma lookupA_setA_self {α : Type} (l : List (String × α)) (k : String) (v : α) :
    lookupA (setA l k v) k = some v := by
  induction l with
  | nil => simp [setA, lookupA]
  | cons p rest ih =>
      by_cases h : p.1 = k
      · simp [setA, h, lookupA]
      · simp [setA, h, lookupA, ih]

lemma setA_setA {α : Type} (l : List (String × α)) (k : String) (a b : α) :
    setA (setA l k a) k b = setA l k b := by
  induction l with
  | nil => simp [setA]
  | cons p rest ih =>
      by_cases h : p.1 = k
      · simp [setA, h]
      · simp [setA, h, ih]

lemma setA_lookup_self {α : Type} (l : List (String × α)) (k : String) (v : α)
    (h : lookupA l k = some v) : setA l k v = l := by
  induction l with
  | nil => simp [lookupA] at h
  | cons p rest ih =>
      obtain ⟨p1, p2⟩ := p
      by_cases hk : p1 = k
      · subst hk
        simp [lookupA] at h
        subst h
        simp [setA]
      · simp [lookupA, hk] at h
        simp [setA, hk, ih h]

lemma lookup2_update2_self (m : UserMap) (k u : String) (tgt : Target) :
    lookup2 (update2 m k u tgt) k u = some tgt := by
  simp [lookup2, update2, lookupA_setA_self]

lemma update2_update2 (m : UserMap) (k u : String) (a b : Target) :
    update2 (update2 m k u a) k u b = update2 m k u b := by
  simp [update2, lookupA_setA_self, setA_setA]

lemma update2_self (m : UserMap) (k u : String) (tgt : Target)
    (h : lookup2 m k u = some tgt) : update2 m k u tgt = m := by
  unfold lookup2 at h
  cases hi : lookupA m k with
  | none => rw [hi] at h; simp at h
  | some inner =>
      rw [hi] at h
      simp at h
      unfold update2
      rw [hi]
      simp [setA_lookup_self inner u tgt h, setA_lookup_self m k inner hi]

/-! Lemmas about the job registry. -/

lemma filter_add_job (jobs : JobMap) (id : String) (j : Job) :
    (add_job jobs id j).filter (fun p => p.1 == id) = [(id, j)] := by
  unfold add_job
  rw [List.filter_append]
  have h1 : (jobs.filter (fun p => p.1 ≠ id)).filter (fun p => p.1 == id) = [] := by
    rw [List.filter_eq_nil_iff]
    intro p hp
    have := List.of_mem_filter hp
    simp at this
    simp [this]
  rw [h1]
  simp

lemma lookupA_append_last {α : Type} (l : List (String × α)) (id : String) (v : α)
    (h : ∀ p ∈ l, p.1 ≠ id) : lookupA (l ++ [(id, v)]) id = some v := by
  induction l with
  | nil => simp [lookupA]
  | cons p rest ih =>
      have hp : p.1 ≠ id := h p (by simp)
      simp [lookupA, hp]
      exact ih (fun q hq => h q (by simp [hq]))

lemma lookupA_add_job (jobs : JobMap) (id : String) (j : Job) :
    lookupA (add_job jobs id j) id = some j := by
  unfold add_job
  apply lookupA_append_last
  intro p hp
  have := List.of_mem_filter hp
  simpa using this

lemma reschedule_reschedule (jobs : JobMap) (id : String) (a b : Trigger) :
    reschedule (reschedule jobs id a) id b = reschedule jobs id b := by
  unfold reschedule
  rw [List.map_map]
  apply List.map_congr_left
  intro p _
  by_cases h : p.1 = id <;> simp [h]

lemma reschedule_cons (k : String) (j : Job) (rest : JobMap) (id : String) (tr : Trigger) :
    reschedule ((k, j) :: rest) id tr =
      (if k = id then (k, { j with trigger := tr }) else (k, j)) :: reschedule rest id tr := rfl

lemma lookupA_cons {α : Type} (k : String) (v : α) (rest : List (String × α)) (key : String) :
    lookupA ((k, v) :: rest) key = if k = key then some v else lookupA rest key := rfl

lemma lookupA_reschedule (jobs : JobMap) (id : String) (tr : Trigger) :
    lookupA (reschedule jobs id tr) id
      = (lookupA jobs id).map (fun j => { j with trigger := tr }) := by
  induction jobs with
  | nil => simp [reschedule, lookupA]
  | cons p rest ih =>
      obtain ⟨k, j⟩ := p
      by_cases h : k = id
      · rw [reschedule_cons, if_pos h, lookupA_cons, if_pos h, lookupA_cons, if_pos h]
        simp
      · rw [reschedule_cons, if_neg h, lookupA_cons, if_neg h, lookupA_cons, if_neg h]
        exact ih

lemma reschedule_absent (jobs : JobMap) (id : String) (tr : Trigger)
    (h : id ∉ jobs.map Prod.fst) : reschedule jobs id tr = jobs := by
  induction jobs with
  | nil => simp [reschedule]
  | cons p rest ih =>
      simp at h
      obtain ⟨h1, h2⟩ := h
      have hp : p.1 ≠ id := fun hc => h1 hc.symm
      simp [reschedule, hp] at ih ⊢
      exact ih (by simpa using h2)

lemma reschedule_self (jobs : JobMap) (id : String) (j : Job)
    (hnodup : (jobs.map Prod.fst).Nodup)
    (h : lookupA jobs id = some j) : reschedule jobs id j.trigger = jobs := by
  induction jobs with
  | nil => simp [lookupA] at h
  | cons p rest ih =>
      obtain ⟨k, w⟩ := p
      rw [List.map_cons, List.nodup_cons] at hnodup
      by_cases hk : k = id
      · subst hk
        rw [lookupA_cons, if_pos rfl] at h
        have hw : w = j := by injection h
        subst hw
        rw [reschedule_cons, if_pos rfl, reschedule_absent rest k w.trigger hnodup.1]
      · rw [lookupA_cons, if_neg hk] at h
        rw [reschedule_cons, if_neg hk, ih hnodup.2 h]

/-! Lemmas about summary chunking. -/

lemma split_msgs_nil : split_msgs [] = [] := rfl

lemma split_msgs_cons (s : List Char) (hs : s ≠ []) :
    split_msgs s = s.take MAX_MESSAGE_LENGTH :: split_msgs (s.drop MAX_MESSAGE_LENGTH) := by
  have hl : 1 ≤ s.length := List.length_pos.mpr hs
  show split_msgs s = s.take 4096 :: split_msgs (s.drop 4096)
  unfold split_msgs
  have hn : (s.length + MAX_MESSAGE_LENGTH - 1) / MAX_MESSAGE_LENGTH
      = ((s.drop 4096).length + MAX_MESSAGE_LENGTH - 1) / MAX_MESSAGE_LENGTH + 1 := by
    rw [List.length_drop]
    show (s.length + 4096 - 1) / 4096 = (s.length - 4096 + 4096 - 1) / 4096 + 1
    omega
  rw [hn, List.range_succ_eq_map]
  rw [List.map_cons, List.map_map]
  refine congrArg₂ List.cons (by simp [MAX_MESSAGE_LENGTH]) ?_
  apply List.map_congr_left
  intro i _
  show (s.drop ((i + 1) * MAX_MESSAGE_LENGTH)).take MAX_MESSAGE_LENGTH
      = ((s.drop 4096).drop (i * MAX_MESSAGE_LENGTH)).take MAX_MESSAGE_LENGTH
  rw [List.drop_drop]
  have hM : (i + 1) * MAX_MESSAGE_LENGTH = 4096 + i * MAX_MESSAGE_LENGTH := by
    show (i + 1) * 4096 = 4096 + i * 4096
    ring
  rw [hM]

lemma join_split_msgs_aux (n : Nat) :
    ∀ s : List Char, s.length ≤ n → (split_msgs s).flatten = s := by
  induction n with
  | zero =>
      intro s h
      have : s = [] := List.eq_nil_of_length_eq_zero (Nat.le_zero.mp h)
      subst this
      simp [split_msgs_nil]
  | succ n ih =>
      intro s h
      by_cases hs : s = []
      · subst hs; simp [split_msgs_nil]
      · rw [split_msgs_cons s hs, List.flatten_cons]
        rw [ih (s.drop MAX_MESSAGE_LENGTH)
              (by rw [List.length_drop]
                  have h2 := List.length_pos.mpr hs
                  show s.length - 4096 ≤ n
                  omega)]
        exact List.take_append_drop _ _

lemma join_split_msgs (s : List Char) : (split_msgs s).flatten = s :=
  join_split_msgs_aux s.length s Nat.le.refl

lemma split_msgs_chunk_aux (n : Nat) :
    ∀ s : List Char, s.length ≤ n →
      ∀ c ∈ split_msgs s, c.length ≤ MAX_MESSAGE_LENGTH ∧ c ≠ [] := by
  induction n with
  | zero =>
      intro s h c hc
      have : s = [] := List.eq_nil_of_length_eq_zero (Nat.le_zero.mp h)
      subst this
      simp [split_msgs_nil] at hc
  | succ n ih =>
      intro s h c hc
      by_cases hs : s = []
      · subst hs; simp [split_msgs_nil] at hc
      · rw [split_msgs_cons s hs] at hc
        rcases List.mem_cons.mp hc with hhd | htl
        · subst hhd
          constructor
          · simp only [List.length_take]
            exact Nat.min_le_left _ _
          · intro hnil
            have h0 := congrArg List.length hnil
            rw [List.length_take] at h0
            have h2 := List.length_pos.mpr hs
            simp [MAX_MESSAGE_LENGTH] at h0
            exact hs h0
        · exact ih (s.drop MAX_MESSAGE_LENGTH)
            (by rw [List.length_drop]
                have h2 := List.length_pos.mpr hs
                show s.length - 4096 ≤ n
                omega) c htl

lemma split_msgs_chunk (s : List Char) :
    ∀ c ∈ split_msgs s, c.length ≤ MAX_MESSAGE_LENGTH ∧ c ≠ [] :=
  split_msgs_chunk_aux s.length s Nat.le.refl

/-! Lemmas about the digest string. -/

lemma sha256hex_length (msg : List Nat) : (sha256hex msg).length = 64 := by
  show (sha256hex msg).data.length = 64
  simp [sha256hex, hexWord]

lemma sha256hex_ne_empty (msg : List Nat) : sha256hex msg ≠ "" := by
  intro h
  have h1 := congrArg String.length h
  rw [sha256hex_length] at h1
  simp at h1

/-- The changed branch of a firing, characterised: when the target is
tracked and its stored digest differs from the fresh one, the firing
dispatches and then commits the fresh digest — for every dispatch
environment, succeeding or failing. -/
lemma check_updates_changed (st : BotState) (url : String) (user : Nat)
    (content : List Nat) (env : DispatchEnv) (tgt : Target)
    (hl : lookup2 st.tracked (toString user) url = some tgt)
    (hne : tgt.hash ≠ sha256hex content) :
    check_updates st url user (.ok content) env =
      ⟨⟨update2 st.tracked (toString user) url ({ tgt with hash := sha256hex content }),
        st.jobs⟩,
       (send_updates user url env).1, .changed⟩ := by
  simp [check_updates, hl, hne]

/-- Classification when no table entry matches: the default kind. -/
lemma resource_type_none (url : String)
    (hf : SUPPORTED_TYPES.find? (fun kv => kv.2.any (fun ext => pyEndsWith url ext)) = none) :
    resource_type url = "document" := by
  unfold resource_type
  rw [hf]

/-- Classification when the first matching table entry is kv. -/
lemma resource_type_some (url : String) (kv : String × List String)
    (hf : SUPPORTED_TYPES.find? (fun kv => kv.2.any (fun ext => pyEndsWith url ext)) = some kv) :
    resource_type url = kv.1 := by
  unfold resource_type
  rw [hf]

/-! Claim theorems. -/

/-- Claim C2: immediately after a track operation, the job registry holds
exactly one job under the pair's job id — the freshly built one — so
re-tracking an already tracked (ownerId, url) pair replaces the prior job
and target in the same step, leaving exactly one job and no stale
registration; the stored target record is the new one. -/
theorem c2_track_single_job (st : BotState) (user : Nat) (name url0 : String)
    (interval : Nat) (night : Bool) :
    (track_handler st user name url0 interval night).jobs.filter
        (fun p => p.1 == jobId user (normalize_url url0))
      = [(jobId user (normalize_url url0),
          ⟨normalize_url url0, user, buildTrigger interval night⟩)] ∧
    lookupA (track_handler st user name url0 interval night).jobs
        (jobId user (normalize_url url0))
      = some ⟨normalize_url url0, user, buildTrigger interval night⟩ ∧
    lookup2 (track_handler st user name url0 interval night).tracked (toString user)
        (normalize_url url0)
      = some ⟨name, interval, "", night⟩ := by
  refine ⟨?_, ?_, ?_⟩
  · have h := filter_add_job st.jobs (jobId user (normalize_url url0))
      ⟨normalize_url url0, user, buildTrigger interval night⟩
    simpa [track_handler] using h
  · have h := lookupA_add_job st.jobs (jobId user (normalize_url url0))
      ⟨normalize_url url0, user, buildTrigger interval night⟩
    simpa [track_handler] using h
  · simp [track_handler, lookup2_update2_self]

/-- Claim C6: a firing whose fetch raises is caught and reported as a
detection failure, a branch distinct from the unchanged one: the state —
including the stored digest and the job registry — is untouched and no
notification is sent, so the next scheduled firing simply retries. -/
theorem c6_fetch_failure_preserves_state (st : BotState) (url : String)
    (user : Nat) (env : DispatchEnv) :
    (check_updates st url user .err env).state = st ∧
    (check_updates st url user .err env).events = [] ∧
    (check_updates st url user .err env).outcome = .fetchFailed ∧
    (check_updates st url user .err env).state.jobs = st.jobs ∧
    Outcome.fetchFailed ≠ Outcome.unchanged :=
  ⟨rfl, rfl, rfl, rfl, by decide⟩

/-- Claim C10: a newly tracked target stores the empty digest, the SHA-256
hexdigest of any content is never the empty string, and therefore the first
successful check always takes the changed branch: the dispatch is invoked
and the fresh digest is recorded. -/
theorem c10_first_check_notifies (st : BotState) (user : Nat)
    (name url0 : String) (interval : Nat) (night : Bool)
    (content : List Nat) (env : DispatchEnv) :
    lookup2 (track_handler st user name url0 interval night).tracked
        (toString user) (normalize_url url0)
      = some ⟨name, interval, "", night⟩ ∧
    sha256hex content ≠ "" ∧
    (check_updates (track_handler st user name url0 interval night)
        (normalize_url url0) user (.ok content) env).outcome = .changed ∧
    (check_updates (track_handler st user name url0 interval night)
        (normalize_url url0) user (.ok content) env).events
      = (send_updates user (normalize_url url0) env).1 ∧
    lookup2 (check_updates (track_handler st user name url0 interval night)
        (normalize_url url0) user (.ok content) env).state.tracked
        (toString user) (normalize_url url0)
      = some ⟨name, interval, sha256hex content, night⟩ := by
  have h1 : lookup2 (track_handler st user name url0 interval night).tracked
      (toString user) (normalize_url url0) = some ⟨name, interval, "", night⟩ := by
    simp [track_handler, lookup2_update2_self]
  have h2 := sha256hex_ne_empty content
  have hch := check_updates_changed (track_handler st user name url0 interval night)
    (normalize_url url0) user content env ⟨name, interval, "", night⟩ h1 (Ne.symm h2)
  refine ⟨h1, h2, by rw [hch], by rw [hch], ?_⟩
  rw [hch]
  exact lookup2_update2_self _ _ _ _

/-- Claim C1 (amended): in the changed branch the dispatch is invoked before
the digest commit, but the commit is performed for every dispatch
environment — succeeding or failing — because the dispatcher swallows its
own errors; the stored digest is left unchanged only when the fetch fails,
the target is untracked, or the content is unchanged. -/
theorem c1_commit_follows_dispatch_attempt (st : BotState) (url : String)
    (user : Nat) (content : List Nat) (env : DispatchEnv) (tgt : Target)
    (hl : lookup2 st.tracked (toString user) url = some tgt)
    (hne : tgt.hash ≠ sha256hex content) :
    (check_updates st url user (.ok content) env).events
      = (send_updates user url env).1 ∧
    lookup2 (check_updates st url user (.ok content) env).state.tracked
        (toString user) url
      = some ({ tgt with hash := sha256hex content }) ∧
    (check_updates st url user (.ok content) env).outcome = .changed := by
  have hch := check_updates_changed st url user content env tgt hl hne
  refine ⟨by rw [hch], ?_, by rw [hch]⟩
  rw [hch]
  exact lookup2_update2_self _ _ _ _

set_option maxRecDepth 10000

/-- Claim C1 witness: the amended theorem applied at a concrete state with
a dispatch environment whose summary send raises. -/
theorem c1_commit_follows_dispatch_attempt_witness :
    lookup2 (check_updates
        (⟨[("7", [("http://a", ⟨"n", 5, "", false⟩)])], []⟩ : BotState)
        "http://a" 7 (.ok [120]) ⟨[], true, []⟩).state.tracked
        (toString 7) "http://a"
      = some ⟨"n", 5, sha256hex [120], false⟩ :=
  (c1_commit_follows_dispatch_attempt
    (⟨[("7", [("http://a", ⟨"n", 5, "", false⟩)])], []⟩ : BotState)
    "http://a" 7 [120] ⟨[], true, []⟩ ⟨"n", 5, "", false⟩
    (by decide) (Ne.symm (sha256hex_ne_empty [120]))).2.1

/-- Claim C1 counterexample: the claim as stated is false — here the
dispatch attempt fails (the dispatcher catches a raised send and reports
nothing to its caller), yet the firing still overwrites the stored digest
with the fresh one, so the next firing will not retry the notification. -/
theorem c1_counterexample_digest_advances_on_failed_dispatch :
    (send_updates 7 "http://a" ⟨[], true, []⟩).2 = false ∧
    lookup2 (check_updates
        (⟨[("7", [("http://a", ⟨"n", 5, "", false⟩)])], []⟩ : BotState)
        "http://a" 7 (.ok [120]) ⟨[], true, []⟩).state.tracked
        "7" "http://a"
      = some ⟨"n", 5, sha256hex [120], false⟩ ∧
    sha256hex [120] ≠ "" := by
  refine ⟨by decide, by decide, sha256hex_ne_empty [120]⟩

/-- Claim C3: a summary text longer than the maximum message size is sent
once as a single file attachment; otherwise it is sent as the consecutive
chunks of the splitting loop, in order; the chunks always concatenate back
to the original text, none exceeds the maximum size, and every chunk — in
particular the last — is non-empty whenever the input is non-empty. -/
theorem c3_summary_chunking (user : Nat) (text : String) :
    (text.length > MAX_MESSAGE_LENGTH →
      summaryPhase user text false = ([Event.sentFile user text], true)) ∧
    (text.length ≤ MAX_MESSAGE_LENGTH →
      summaryPhase user text false
        = ((split_msgs text.data).map (fun c => Event.sentChunk user (String.mk c)), true)) ∧
    String.mk (split_msgs text.data).flatten = text ∧
    (∀ c ∈ split_msgs text.data, c.length ≤ MAX_MESSAGE_LENGTH ∧ c ≠ []) ∧
    (text ≠ "" → split_msgs text.data ≠ []) := by
  refine ⟨?_, ?_, ?_, split_msgs_chunk text.data, ?_⟩
  · intro h
    simp [summaryPhase, h]
  · intro h
    have h2 : ¬ text.length > MAX_MESSAGE_LENGTH := Nat.not_lt.mpr h
    simp [summaryPhase, h2]
  · rw [join_split_msgs]
  · intro h
    have hd : text.data ≠ [] := by
      intro hnil
      exact h (String.ext (by simp [hnil]))
    rw [split_msgs_cons text.data hd]
    simp

/-- Claim C3 witness: the chunk branch and the file branch of the theorem
applied at concrete texts. -/
theorem c3_summary_chunking_witness :
    summaryPhase 0 "ab" false = ([Event.sentChunk 0 "ab"], true) ∧
    summaryPhase 0 (String.mk (List.replicate 4097 'x')) false
      = ([Event.sentFile 0 (String.mk (List.replicate 4097 'x'))], true) := by
  constructor
  · have h := (c3_summary_chunking 0 "ab").2.1 (by decide)
    rw [h]
    rfl
  · refine (c3_summary_chunking 0 (String.mk (List.replicate 4097 'x'))).1 ?_
    show (List.replicate 4097 'x').length > MAX_MESSAGE_LENGTH
    rw [List.length_replicate]
    decide

/-- Claim C4: the kind of every candidate resource URL is chosen by a
suffix match of the URL against the fixed four-kind table: the result is
always one of the four kinds, a non-default result is witnessed by a table
entry the URL ends with, and when no table entry matches the kind defaults
to document; the second classifier variant is the same match on the
lowercased URL. -/
theorem c4_kind_classification (url : String) :
    (resource_type url = "document" ∨ resource_type url = "image" ∨
      resource_type url = "audio" ∨ resource_type url = "video") ∧
    (resource_type url ≠ "document" →
      ∃ exts, (resource_type url, exts) ∈ SUPPORTED_TYPES ∧
        exts.any (fun ext => pyEndsWith url ext) = true) ∧
    (SUPPORTED_TYPES.all (fun kv => kv.2.all (fun ext => !pyEndsWith url ext)) = true →
      resource_type url = "document") ∧
    resource_type_lc url = resource_type (lowerStr url) := by
  have hsplit : ∀ (o : Option (String × List String)), o = none ∨ ∃ kv, o = some kv := by
    intro o
    cases o with
    | none => exact Or.inl rfl
    | some kv => exact Or.inr ⟨kv, rfl⟩
  refine ⟨?_, ?_, ?_, rfl⟩
  · rcases hsplit (SUPPORTED_TYPES.find? (fun kv => kv.2.any (fun ext => pyEndsWith url ext)))
      with hf | ⟨kv, hf⟩
    · exact Or.inl (resource_type_none url hf)
    · rw [resource_type_some url kv hf]
      have hm := List.mem_of_find?_eq_some hf
      simp [SUPPORTED_TYPES] at hm
      rcases hm with h | h | h | h <;> rw [h] <;> simp
  · intro hne
    rcases hsplit (SUPPORTED_TYPES.find? (fun kv => kv.2.any (fun ext => pyEndsWith url ext)))
      with hf | ⟨kv, hf⟩
    · exact absurd (resource_type_none url hf) hne
    · refine ⟨kv.2, ?_, ?_⟩
      · rw [resource_type_some url kv hf]
        exact List.mem_of_find?_eq_some hf
      · have hp := List.find?_some hf
        simpa using hp
  · intro hall
    refine resource_type_none url ?_
    rw [List.find?_eq_none]
    intro kv hm
    have h1 := List.all_eq_true.mp hall kv hm
    simp at h1 ⊢
    exact h1

/-- Claim C4 witness: a URL matching an image suffix and a URL matching
nothing, classified through the theorem. -/
theorem c4_kind_classification_witness :
    (∃ exts, (resource_type "http://h/x/image/png", exts) ∈ SUPPORTED_TYPES ∧
      exts.any (fun ext => pyEndsWith "http://h/x/image/png" ext) = true) ∧
    resource_type "http://h/a" = "document" :=
  ⟨(c4_kind_classification "http://h/x/image/png").2.1 (by decide),
   (c4_kind_classification "http://h/a").2.2.1 (by decide)⟩

/-- Claim C5: the delivery channel is selected by the resource kind — image
through the photo channel, video through the video channel, audio through
the audio channel, and document or any other kind through the generic file
channel — and a deliverable resource is sent on the selected channel with
the fetched payload as the message body. -/
theorem c5_channel_selection :
    send_method "image" = Channel.photo ∧ send_method "video" = Channel.video ∧
    send_method "audio" = Channel.audio ∧ send_method "document" = Channel.document ∧
    (∀ kind, kind ≠ "image" → kind ≠ "video" → kind ≠ "audio" →
      send_method kind = Channel.document) ∧
    (∀ (user : Nat) (r : Resource) (rs : List Resource)
        (o : MediaOutcome) (os : List MediaOutcome),
      o.fetchRaises = false → o.status = 200 →
      ¬ o.body.length > MAX_FILE_SIZE → o.sendRaises = false →
      mediaPhase user (r :: rs) (o :: os)
        = Event.sentMedia user (send_method r.kind) o.body r.name
            :: mediaPhase user rs os) := by
  refine ⟨rfl, rfl, rfl, rfl, ?_, ?_⟩
  · intro kind h1 h2 h3
    simp [send_method, h1, h2, h3]
  · intro user r rs o os hf hs hb hsend
    simp [mediaPhase, hf, hs, hb, hsend]

/-- Claim C5 witness: an unmatched kind falls back to the file channel, and
a deliverable image resource is emitted on the photo channel with its
payload. -/
theorem c5_channel_selection_witness :
    send_method "resource" = Channel.document ∧
    mediaPhase 1 [⟨"u", "n", "image"⟩] [⟨false, 200, [7], false⟩]
      = [Event.sentMedia 1 Channel.photo [7] "n"] := by
  refine ⟨c5_channel_selection.2.2.2.2.1 "resource" (by decide) (by decide) (by decide), ?_⟩
  have h := c5_channel_selection.2.2.2.2.2 1 ⟨"u", "n", "image"⟩ []
    ⟨false, 200, [7], false⟩ [] rfl rfl (by decide) rfl
  rw [h]
  rfl

/-- Claim C7: with night mode on, the built trigger is the AND combination
of the interval trigger and the 6-22 hour cron window, so it fires exactly
when the interval condition holds and the hour of day lies in the window —
in particular it never fires at a time whose hour is outside the window. -/
theorem c7_night_trigger_window (interval start t : Nat) :
    buildTrigger interval true
      = Trigger.comb (.interval interval) (.cron 6 22) ∧
    (buildTrigger interval true).fires start t
      = ((Trigger.interval interval).fires start t
          && (Trigger.cron 6 22).fires start t) ∧
    ((buildTrigger interval true).fires start t = true →
      6 ≤ hourOf t ∧ hourOf t ≤ 22) ∧
    (¬ (6 ≤ hourOf t ∧ hourOf t ≤ 22) →
      (buildTrigger interval true).fires start t = false) := by
  have hiff : (buildTrigger interval true).fires start t = true ↔
      ((Trigger.interval interval).fires start t = true ∧
        (6 ≤ hourOf t ∧ hourOf t ≤ 22)) := by
    simp [buildTrigger, Trigger.fires]
  refine ⟨rfl, rfl, ?_, ?_⟩
  · intro h
    exact (hiff.mp h).2
  · intro h
    cases hb : (buildTrigger interval true).fires start t with
    | false => rfl
    | true => exact absurd (hiff.mp hb).2 h

/-- Claim C7 witness: at 23:00 the hour is outside the window and the night
trigger does not fire. -/
theorem c7_night_trigger_window_witness :
    ¬ (6 ≤ hourOf 1380 ∧ hourOf 1380 ≤ 22) ∧
    (buildTrigger 30 true).fires 0 1380 = false :=
  ⟨by decide, (c7_night_trigger_window 30 0 1380).2.2.2 (by decide)⟩

/-- Claim C8: for a tracked target with a live scheduled job whose trigger
agrees with its stored configuration, toggling night mode twice restores
the whole state — the stored flag and the live trigger — bit for bit. -/
theorem c8_toggle_involution (st : BotState) (user : Nat) (url : String)
    (tgt : Target) (j : Job)
    (hnodup : (st.jobs.map Prod.fst).Nodup)
    (ht : lookup2 st.tracked (toString user) url = some tgt)
    (hj : lookupA st.jobs (jobId user url) = some j)
    (htr : j.trigger = buildTrigger tgt.interval tgt.nightMode) :
    nightmode_handler (nightmode_handler st user url) user url = st := by
  have h1 : nightmode_handler st user url =
      ⟨update2 st.tracked (toString user) url ({ tgt with nightMode := !tgt.nightMode }),
       reschedule st.jobs (jobId user url)
         (buildTrigger tgt.interval (!tgt.nightMode))⟩ := by
    simp [nightmode_handler, ht, hj]
  rw [h1]
  have ht2 : lookup2
      (update2 st.tracked (toString user) url ({ tgt with nightMode := !tgt.nightMode }))
      (toString user) url = some ({ tgt with nightMode := !tgt.nightMode }) :=
    lookup2_update2_self _ _ _ _
  have hj2 : lookupA
      (reschedule st.jobs (jobId user url) (buildTrigger tgt.interval (!tgt.nightMode)))
      (jobId user url)
      = some ({ j with trigger := buildTrigger tgt.interval (!tgt.nightMode) }) := by
    rw [lookupA_reschedule, hj]
    rfl
  simp only [nightmode_handler, ht2, hj2, Bool.not_not]
  rw [update2_update2, update2_self st.tracked (toString user) url tgt ht]
  rw [reschedule_reschedule, ← htr, reschedule_self st.jobs (jobId user url) j hnodup hj]

/-- Claim C8 witness: the involution at a concrete consistent state. -/
theorem c8_toggle_involution_witness :
    nightmode_handler (nightmode_handler
        (⟨[("7", [("http://a", ⟨"n", 30, "", false⟩)])],
          [("7_http://a", ⟨"http://a", 7, Trigger.interval 30⟩)]⟩ : BotState)
        7 "http://a") 7 "http://a"
      = ⟨[("7", [("http://a", ⟨"n", 30, "", false⟩)])],
         [("7_http://a", ⟨"http://a", 7, Trigger.interval 30⟩)]⟩ :=
  c8_toggle_involution _ 7 "http://a" ⟨"n", 30, "", false⟩
    ⟨"http://a", 7, Trigger.interval 30⟩
    (by decide) (by decide) (by decide) (by decide)

end UrlTracker
